import Mathlib

/-!
# Verification of the AISB Student Management System core logic

A shallow embedding, in Lean 4, of the deterministic core of the
AISB student-management application:

* the letter-grade threshold functions
  (`src/agents/quiz_grader.py`, `src/agents/video_analyzer.py`,
  `src/utils/video_utils.py`),
* the fallback quiz-grading heuristic
  (`QuizGraderAgent._create_basic_grading`),
* the fallback video-analysis heuristic
  (`VideoAnalyzerAgent._generate_mock_analysis`),
* Google-Drive link validation
  (`VideoAnalyzerAgent.validate_google_drive_link`),
* video submission (`VideoSubmissionManager.submit_video`),
* the combined-results aggregator, selection engine and release step
  (`FinalResultsManager`).

Python numbers are modelled as exact rationals (`ℚ`) / integers (`ℤ`);
Python's `round(x, n)` (round-half-to-even) is modelled exactly on `ℚ`.
Python dicts with insertion-order iteration are modelled as association
lists that preserve first-insertion order of keys.
-/

set_option linter.all false

namespace AISB

/-! ## Rounding

Python's builtin `round` uses round-half-to-even ("banker's rounding").
We model it on exact rationals. -/

/-- Round-half-to-even to the nearest integer, on rationals:
models Python's `round(x)` applied to the exact value of `x`. -/
def roundHalfEven (q : ℚ) : ℤ :=
  if q - (⌊q⌋ : ℚ) < 1 / 2 then ⌊q⌋
  else if 1 / 2 < q - (⌊q⌋ : ℚ) then ⌊q⌋ + 1
  else if ⌊q⌋ % 2 = 0 then ⌊q⌋ else ⌊q⌋ + 1

/-- Python's `round(x, 2)` on exact rationals. -/
def round2 (q : ℚ) : ℚ := (roundHalfEven (q * 100) : ℚ) / 100

theorem roundHalfEven_intCast (n : ℤ) : roundHalfEven (n : ℚ) = n := by
  unfold roundHalfEven
  simp [Int.floor_intCast]

theorem round2_intCast (n : ℤ) : round2 (n : ℚ) = (n : ℚ) := by
  unfold round2
  have : ((n : ℚ) * 100) = ((n * 100 : ℤ) : ℚ) := by push_cast; ring
  rw [this, roundHalfEven_intCast]
  push_cast
  ring

/-- The rounded value never exceeds the true value by more than `1/2`
(in units of the last kept digit). -/
theorem roundHalfEven_le (q : ℚ) : (roundHalfEven q : ℚ) ≤ q + 1 / 2 := by
  unfold roundHalfEven
  have h := Int.floor_le q
  split_ifs with h1 h2 h3
  · linarith
  · push_cast; linarith
  · push_cast; linarith
  · push_cast; linarith

/-- If `q ≤ b` for an integer bound `b`, the half-even rounding of `q`
also stays at most `b`. -/
theorem roundHalfEven_le_of_le {q : ℚ} {b : ℤ} (h : q ≤ (b : ℚ)) :
    roundHalfEven q ≤ b := by
  have h1 : (roundHalfEven q : ℚ) ≤ (b : ℚ) + 1 / 2 :=
    le_trans (roundHalfEven_le q) (by linarith)
  have h2 : roundHalfEven q < b + 1 := by
    have : (roundHalfEven q : ℚ) < ((b + 1 : ℤ) : ℚ) := by push_cast; linarith
    exact_mod_cast this
  omega

/-- `round2` preserves upper bounds by integers: if `x ≤ b` then
`round2 x ≤ b`. -/
theorem round2_le_of_le {q : ℚ} {b : ℤ} (h : q ≤ (b : ℚ)) : round2 q ≤ (b : ℚ) := by
  unfold round2
  have h1 : q * 100 ≤ ((b * 100 : ℤ) : ℚ) := by push_cast; nlinarith
  have h2 : roundHalfEven (q * 100) ≤ b * 100 := roundHalfEven_le_of_le h1
  have h3 : (roundHalfEven (q * 100) : ℚ) ≤ ((b * 100 : ℤ) : ℚ) := by exact_mod_cast h2
  push_cast at h3
  linarith

/-! ## Letter-grade threshold functions

The repository contains three textually identical grade ladders:
`QuizGraderAgent._calculate_letter_grade` (src/agents/quiz_grader.py,
lines 172-183), `VideoAnalyzerAgent._calculate_letter_grade`
(src/agents/video_analyzer.py, lines 334-345) and
`FinalResultsManager._calculate_final_grade` (src/utils/video_utils.py,
lines 320-331). Each is embedded separately. -/

namespace QuizGrader

/-- `QuizGraderAgent._calculate_letter_grade` (src/agents/quiz_grader.py). -/
def calculate_letter_grade (percentage : ℚ) : String :=
  if percentage ≥ 90 then "A"
  else if percentage ≥ 80 then "B"
  else if percentage ≥ 70 then "C"
  else if percentage ≥ 60 then "D"
  else "F"

end QuizGrader

namespace VideoAnalyzer

/-- `VideoAnalyzerAgent._calculate_letter_grade` (src/agents/video_analyzer.py). -/
def calculate_letter_grade (percentage : ℚ) : String :=
  if percentage ≥ 90 then "A"
  else if percentage ≥ 80 then "B"
  else if percentage ≥ 70 then "C"
  else if percentage ≥ 60 then "D"
  else "F"

end VideoAnalyzer

namespace FinalResults

/-- `FinalResultsManager._calculate_final_grade` (src/utils/video_utils.py). -/
def calculate_final_grade (score : ℚ) : String :=
  if score ≥ 90 then "A"
  else if score ≥ 80 then "B"
  else if score ≥ 70 then "C"
  else if score ≥ 60 then "D"
  else "F"

end FinalResults

/-- Numeric rank of a letter grade, used to state that the grade ladder is
monotone (`F < D < C < B < A`). -/
def gradeValue : String → ℕ
  | "A" => 4
  | "B" => 3
  | "C" => 2
  | "D" => 1
  | _ => 0

theorem calculate_letter_grade_mono {x y : ℚ} (h : x ≤ y) :
    gradeValue (QuizGrader.calculate_letter_grade x) ≤
      gradeValue (QuizGrader.calculate_letter_grade y) := by
  unfold QuizGrader.calculate_letter_grade
  split_ifs <;> simp [gradeValue] <;> linarith

/-- C3: the letter-grade function maps `x ≥ 90` to A, `80 ≤ x < 90` to B,
`70 ≤ x < 80` to C, `60 ≤ x < 70` to D and `x < 60` to F (each band
inclusive on its lower bound); it is monotonically non-increasing as the
percentage decreases; the quiz-grading, video-analysis and final-combined
grade functions are extensionally equal; and
`grade 90 = A`, `grade 89.9 = B`, `grade 60 = D`, `grade 59.9 = F`. -/
theorem quiz_grade_eq_video_grade :
    QuizGrader.calculate_letter_grade = VideoAnalyzer.calculate_letter_grade := rfl

theorem quiz_grade_eq_final_grade :
    QuizGrader.calculate_letter_grade = FinalResults.calculate_final_grade := rfl

theorem C3_grade_thresholds (x y : ℚ) (hxy : x ≤ y) :
    (90 ≤ x → QuizGrader.calculate_letter_grade x = "A")
    ∧ (80 ≤ x → x < 90 → QuizGrader.calculate_letter_grade x = "B")
    ∧ (70 ≤ x → x < 80 → QuizGrader.calculate_letter_grade x = "C")
    ∧ (60 ≤ x → x < 70 → QuizGrader.calculate_letter_grade x = "D")
    ∧ (x < 60 → QuizGrader.calculate_letter_grade x = "F")
    ∧ gradeValue (QuizGrader.calculate_letter_grade x) ≤
        gradeValue (QuizGrader.calculate_letter_grade y)
    ∧ QuizGrader.calculate_letter_grade x = VideoAnalyzer.calculate_letter_grade x
    ∧ QuizGrader.calculate_letter_grade x = FinalResults.calculate_final_grade x
    ∧ QuizGrader.calculate_letter_grade 90 = "A"
    ∧ QuizGrader.calculate_letter_grade (899 / 10) = "B"
    ∧ QuizGrader.calculate_letter_grade 60 = "D"
    ∧ QuizGrader.calculate_letter_grade (599 / 10) = "F" := by
  refine ⟨?_, ?_, ?_, ?_, ?_, calculate_letter_grade_mono hxy,
    congrFun quiz_grade_eq_video_grade x, congrFun quiz_grade_eq_final_grade x,
    ?_, ?_, ?_, ?_⟩ <;>
    first
      | (intro h1 h2
         unfold QuizGrader.calculate_letter_grade
         split_ifs <;> first | rfl | linarith)
      | (intro h1
         unfold QuizGrader.calculate_letter_grade
         split_ifs <;> first | rfl | linarith)
      | norm_num [QuizGrader.calculate_letter_grade]

/-- Witness for C3 at concrete percentages `x = 59.9`, `y = 90`. -/
theorem C3_grade_thresholds_witness :
    QuizGrader.calculate_letter_grade (599 / 10) = "F"
    ∧ gradeValue (QuizGrader.calculate_letter_grade (599 / 10)) ≤
        gradeValue (QuizGrader.calculate_letter_grade 90) := by
  have h := C3_grade_thresholds (599 / 10) 90 (by norm_num)
  exact ⟨h.2.2.2.2.1 (by norm_num), h.2.2.2.2.2.1⟩

/-! ## Python string primitives

Executable character-level models of the Python string methods used by
the core: `str.strip()` (drop whitespace at both ends), `str.lower()`
(lowercase each character), whitespace `str.split()` and the substring
operator `in`. -/

/-- Python `str.strip()` on the character list of a string. -/
def pyStrip (l : List Char) : List Char :=
  ((l.dropWhile Char.isWhitespace).reverse.dropWhile Char.isWhitespace).reverse

/-- Python `str.lower()` on the character list of a string. -/
def pyLower (l : List Char) : List Char := l.map Char.toLower

/-- Python `a.strip().lower() == b.strip().lower()` for two strings. -/
def answersMatch (a b : String) : Bool :=
  pyLower (pyStrip a.data) == pyLower (pyStrip b.data)

/-- Python `pat in s` (substring containment) on character lists. -/
def containsSub (pat : List Char) : List Char → Bool
  | [] => pat.isEmpty
  | c :: rest => pat.isPrefixOf (c :: rest) || containsSub pat rest

/-- Python `s.split()`: maximal runs of non-whitespace characters. -/
def pyWords (l : List Char) : List (List Char) :=
  (l.splitOnP Char.isWhitespace).filter (fun w => w ≠ [])

/-! ## Fallback quiz grading heuristic

`QuizGraderAgent._create_basic_grading` (src/agents/quiz_grader.py,
lines 132-165). Python list indexing guarded by
`student_answers[i] if i < len(student_answers) else ""` is `List.getD i ""`.
The `overall_feedback` field is a formatted presentation string
(`"You scored {c}/{n} ({p:.1f}%)"`); it is not modelled. -/

/-- A quiz question, as consumed by the grading heuristic (which only
uses the question count). -/
structure Question where
  question : String
  deriving Repr, DecidableEq

/-- One entry of the per-question `question_results` list built by
`_create_basic_grading`. -/
structure QuestionResult where
  question_number : ℕ
  student_answer : String
  correct_answer : String
  is_correct : Bool
  points_earned : ℕ
  feedback : String
  deriving Repr, DecidableEq, Inhabited

/-- The grading dictionary returned by `_create_basic_grading`. -/
structure GradingResult where
  total_questions : ℕ
  correct_answers : ℕ
  score_percentage : ℚ
  question_results : List QuestionResult
  grade : String
  deriving Repr, DecidableEq

namespace QuizGrader

/-- The loop body of `_create_basic_grading` for question index `i`
(0-based): fetch the two answers (missing entries default to `""`),
compare after `strip().lower()`, and build the per-question record. -/
def gradeQuestion (student_answers correct_answers : List String) (i : ℕ) :
    QuestionResult :=
  let student_answer := student_answers.getD i ""
  let correct_answer := correct_answers.getD i ""
  let is_correct : Bool := answersMatch student_answer correct_answer
  { question_number := i + 1
    student_answer := student_answer
    correct_answer := correct_answer
    is_correct := is_correct
    points_earned := if is_correct then 1 else 0
    feedback :=
      if is_correct then "Correct!"
      else "Incorrect. The correct answer is: " ++ correct_answer }

/-- `QuizGraderAgent._create_basic_grading` (src/agents/quiz_grader.py,
lines 132-165). The returned `score_percentage` is
`round(score_percentage, 2)`; the letter grade is computed from the
unrounded percentage. -/
def create_basic_grading (student_answers correct_answers : List String)
    (questions : List Question) : GradingResult :=
  let question_results :=
    (List.range questions.length).map (gradeQuestion student_answers correct_answers)
  let correct_count := (question_results.filter (fun r => r.is_correct)).length
  let score_percentage : ℚ :=
    if questions.length = 0 then 0
    else ((correct_count : ℚ) / (questions.length : ℚ)) * 100
  { total_questions := questions.length
    correct_answers := correct_count
    score_percentage := round2 score_percentage
    question_results := question_results
    grade := calculate_letter_grade score_percentage }

end QuizGrader

/-- Counterexample to C4 as stated: with 1 correct answer out of 3
questions the returned score percentage is `round(100/3, 2) = 33.33`,
not `100 * 1 / 3`. -/
theorem C4_basic_grading_counterexample :
    (QuizGrader.create_basic_grading ["a"] ["a", "b", "c"]
        [⟨"q1"⟩, ⟨"q2"⟩, ⟨"q3"⟩]).correct_answers = 1
    ∧ (QuizGrader.create_basic_grading ["a"] ["a", "b", "c"]
        [⟨"q1"⟩, ⟨"q2"⟩, ⟨"q3"⟩]).score_percentage ≠ 100 * 1 / 3 := by
  constructor
  · decide
  · show round2 _ ≠ _
    have h : ((List.map (QuizGrader.gradeQuestion ["a"] ["a", "b", "c"])
        (List.range 3)).filter (fun r => r.is_correct)).length = 1 := by decide
    simp only [List.length_cons, List.length_nil] at h ⊢
    rw [if_neg (by norm_num), h]
    norm_num [round2, roundHalfEven]

/-- C4 (amended: the returned score percentage is the exact percentage
rounded to 2 decimals): the fallback grading compares `answers[i]` to
`correct[i]` per index using case-insensitive, whitespace-trimmed exact
string equality, awarding one point each; missing entries on either side
default to `""` and count as incorrect; the per-question list always has
one entry per question; the score percentage is
`round2 (100 * correct_count / total_questions)` and `0` for an empty
question list; the grade comes from the shared ladder applied to the
unrounded percentage. -/
theorem C4_basic_grading (student_answers correct_answers : List String)
    (questions : List Question) :
    (QuizGrader.create_basic_grading student_answers correct_answers
        questions).question_results.length = questions.length
    ∧ (QuizGrader.create_basic_grading student_answers correct_answers
        questions).total_questions = questions.length
    ∧ (∀ i, i < questions.length →
        ((QuizGrader.create_basic_grading student_answers correct_answers
            questions).question_results.getD i default).is_correct =
          answersMatch (student_answers.getD i "") (correct_answers.getD i ""))
    ∧ (QuizGrader.create_basic_grading student_answers correct_answers
        questions).correct_answers =
        (((QuizGrader.create_basic_grading student_answers correct_answers
            questions).question_results.filter (fun r => r.is_correct)).length)
    ∧ (QuizGrader.create_basic_grading student_answers correct_answers
        questions).score_percentage =
        round2 (if questions.length = 0 then 0
          else 100 * ((QuizGrader.create_basic_grading student_answers
            correct_answers questions).correct_answers : ℚ) / (questions.length : ℚ))
    ∧ (questions = [] →
        (QuizGrader.create_basic_grading student_answers correct_answers
          questions).score_percentage = 0)
    ∧ (QuizGrader.create_basic_grading student_answers correct_answers
        questions).grade =
        QuizGrader.calculate_letter_grade
          (if questions.length = 0 then 0
            else 100 * ((QuizGrader.create_basic_grading student_answers
              correct_answers questions).correct_answers : ℚ) /
                (questions.length : ℚ)) := by
  unfold QuizGrader.create_basic_grading
  refine ⟨by simp, rfl, ?_, rfl, ?_, ?_, ?_⟩
  · intro i hi
    simp only [List.getD_eq_getElem?_getD]
    rw [List.getElem?_map, List.getElem?_range hi]
    simp [QuizGrader.gradeQuestion]
  · by_cases h : questions.length = 0
    · simp [h]
    · simp only [h, if_false, ite_false]
      congr 1
      ring
  · intro h
    subst h
    simp [round2, roundHalfEven]
  · by_cases h : questions.length = 0
    · simp [h]
    · simp only [h, if_false, ite_false]
      congr 1
      ring

/-- Witness for C4 at the spec's example: answers `["A","B"]` against
correct `["A","C"]` over two questions give one correct answer, score
`50.0` and grade F. -/
theorem C4_basic_grading_witness :
    (QuizGrader.create_basic_grading ["A", "B"] ["A", "C"]
        [⟨"q1"⟩, ⟨"q2"⟩]).question_results.length = 2
    ∧ (QuizGrader.create_basic_grading ["A", "B"] ["A", "C"]
        [⟨"q1"⟩, ⟨"q2"⟩]).correct_answers = 1
    ∧ (QuizGrader.create_basic_grading ["A", "B"] ["A", "C"]
        [⟨"q1"⟩, ⟨"q2"⟩]).score_percentage = 50
    ∧ (QuizGrader.create_basic_grading ["A", "B"] ["A", "C"]
        [⟨"q1"⟩, ⟨"q2"⟩]).grade = "F" := by
  have h := C4_basic_grading ["A", "B"] ["A", "C"] [⟨"q1"⟩, ⟨"q2"⟩]
  have hc : (QuizGrader.create_basic_grading ["A", "B"] ["A", "C"]
      [⟨"q1"⟩, ⟨"q2"⟩]).correct_answers = 1 := by decide
  refine ⟨h.1, hc, ?_, ?_⟩
  · rw [h.2.2.2.2.1, hc]
    norm_num [round2, roundHalfEven]
  · rw [h.2.2.2.2.2.2, hc]
    norm_num [QuizGrader.calculate_letter_grade]

/-! ## The combined-results aggregator

`FinalResultsManager.calculate_combined_results`
(src/utils/video_utils.py, lines 192-247). The Python code builds an
insertion-ordered dict keyed by student id. The model is an association
list that preserves first-insertion order of keys: assigning to an
existing key replaces the value in place, assigning to a fresh key
appends. `get_all_results` / `get_all_videos` are read-only store
accesses; the record fields used by the aggregator (with their
`dict.get` defaults folded in) form the two record structures below. -/

/-- The fields of a stored quiz-result record read by the aggregator. -/
structure QuizRecord where
  student_id : String
  score_percentage : ℚ
  grade : String
  feedback : String
  deriving Repr, DecidableEq

/-- The fields of a stored video record read by the aggregator. -/
structure VideoRecord where
  student_id : String
  video_score : ℚ
  video_grade : String
  video_feedback : String
  video_link : String
  deriving Repr, DecidableEq

/-- One combined per-student entry of the aggregator's dict. `video_link`
is only present after a video was merged (the Python dict gains the key
then), hence an `Option`. -/
structure CombinedResult where
  student_id : String
  quiz_score : ℚ
  quiz_grade : String
  quiz_feedback : String
  quiz_submitted : Bool
  video_score : ℚ
  video_grade : String
  video_feedback : String
  video_submitted : Bool
  video_link : Option String
  total_score : ℚ
  final_grade : String
  deriving Repr, DecidableEq

namespace FinalResults

/-- The dict value seeded from a quiz result (first loop of
`calculate_combined_results`, lines 205-220). -/
def seedFromQuiz (q : QuizRecord) : CombinedResult :=
  { student_id := q.student_id
    quiz_score := q.score_percentage
    quiz_grade := q.grade
    quiz_feedback := q.feedback
    quiz_submitted := true
    video_score := 0
    video_grade := "Not Submitted"
    video_feedback := "No video submission"
    video_submitted := false
    video_link := none
    total_score := 0
    final_grade := "Incomplete" }

/-- One step of the quiz loop: skip records with a falsy (empty) student
id, otherwise upsert the seeded entry into the insertion-ordered map. -/
def upsertQuiz (acc : List CombinedResult) (q : QuizRecord) :
    List CombinedResult :=
  if q.student_id = "" then acc
  else if acc.any (fun r => r.student_id = q.student_id) then
    acc.map (fun r => if r.student_id = q.student_id then seedFromQuiz q else r)
  else acc ++ [seedFromQuiz q]

/-- One step of the video loop (lines 223-232): if the student id is
already seeded, merge the video fields into that entry; otherwise the
video record is dropped. -/
def mergeVideo (acc : List CombinedResult) (v : VideoRecord) :
    List CombinedResult :=
  if acc.any (fun r => r.student_id = v.student_id) then
    acc.map (fun r =>
      if r.student_id = v.student_id then
        { r with
          video_score := v.video_score
          video_grade := v.video_grade
          video_feedback := v.video_feedback
          video_submitted := true
          video_link := some v.video_link }
      else r)
  else acc

/-- The scoring pass (lines 235-245): weighted total (60% quiz, 40%
video when submitted, quiz only otherwise), stored rounded to 2 decimals;
the final grade is computed from the unrounded total. -/
def finalize (r : CombinedResult) : CombinedResult :=
  let total_score : ℚ :=
    if r.video_submitted then r.quiz_score * (6 / 10) + r.video_score * (4 / 10)
    else r.quiz_score * (6 / 10)
  { r with
    total_score := round2 total_score
    final_grade := calculate_final_grade total_score }

/-- `FinalResultsManager.calculate_combined_results`
(src/utils/video_utils.py, lines 192-247), as a function of the two
record collections read from the store. -/
def calculate_combined_results (quiz_results : List QuizRecord)
    (video_results : List VideoRecord) : List CombinedResult :=
  ((video_results.foldl mergeVideo (quiz_results.foldl upsertQuiz [])).map finalize)

theorem finalize_video_submitted (r : CombinedResult) :
    (finalize r).video_submitted = r.video_submitted := rfl

theorem finalize_quiz_score (r : CombinedResult) :
    (finalize r).quiz_score = r.quiz_score := rfl

theorem finalize_video_score (r : CombinedResult) :
    (finalize r).video_score = r.video_score := rfl

end FinalResults

/-- C1: every `CombinedResult` produced by the aggregator carries
`total_score = round2 (quiz_score * 0.6 + video_score * 0.4)` when a
video was merged and `total_score = round2 (quiz_score * 0.6)` otherwise,
with the final grade computed from the unrounded total; consequently a
student without a video submission (and a quiz percentage of at most 100)
has `total_score ≤ 60`. -/
theorem C1_total_score_formula (quiz_results : List QuizRecord)
    (video_results : List VideoRecord) (r : CombinedResult)
    (hr : r ∈ FinalResults.calculate_combined_results quiz_results video_results) :
    r.total_score =
      round2 (if r.video_submitted then
          r.quiz_score * (6 / 10) + r.video_score * (4 / 10)
        else r.quiz_score * (6 / 10))
    ∧ r.final_grade =
      FinalResults.calculate_final_grade (if r.video_submitted then
          r.quiz_score * (6 / 10) + r.video_score * (4 / 10)
        else r.quiz_score * (6 / 10))
    ∧ (r.video_submitted = false → r.quiz_score ≤ 100 → r.total_score ≤ 60) := by
  obtain ⟨r0, hr0, rfl⟩ := List.mem_map.mp hr
  refine ⟨rfl, rfl, ?_⟩
  intro hv hq
  rw [FinalResults.finalize_video_submitted] at hv
  rw [FinalResults.finalize_quiz_score] at hq
  show round2 _ ≤ _
  rw [hv]
  simp only [Bool.false_eq_true, if_false, ite_false]
  have h1 : r0.quiz_score * (6 / 10) ≤ ((60 : ℤ) : ℚ) := by push_cast; linarith
  have := round2_le_of_le h1
  simpa using this

/-- Witness for C1: a student with quiz score 80 and no video gets
total 48.0 with `video_submitted = false`; with quiz 80 and video 90 the
total is 84.0; and the no-video total is at most 60 (by `C1_total_score_formula`). -/
theorem C1_total_score_formula_witness :
    ((FinalResults.calculate_combined_results [⟨"s1", 80, "B", "good"⟩] []).map
        (fun r => (r.total_score, r.video_submitted)) = [(48, false)])
    ∧ ((FinalResults.calculate_combined_results [⟨"s1", 80, "B", "good"⟩]
          [⟨"s1", 90, "A", "nice", "link"⟩]).map
        (fun r => (r.total_score, r.video_submitted)) = [(84, true)])
    ∧ (FinalResults.finalize
        (FinalResults.seedFromQuiz ⟨"s1", 80, "B", "good"⟩)).total_score ≤ 60 := by
  refine ⟨?_, ?_, ?_⟩
  · simp only [FinalResults.calculate_combined_results, FinalResults.upsertQuiz,
      FinalResults.mergeVideo, FinalResults.seedFromQuiz, FinalResults.finalize,
      List.foldl, List.map, List.any]
    norm_num [round2, roundHalfEven]
  · simp only [FinalResults.calculate_combined_results, FinalResults.upsertQuiz,
      FinalResults.mergeVideo, FinalResults.seedFromQuiz, FinalResults.finalize,
      List.foldl, List.map, List.any]
    norm_num [round2, roundHalfEven]
  · exact (C1_total_score_formula [⟨"s1", 80, "B", "good"⟩] [] _
      (by simp [FinalResults.calculate_combined_results, FinalResults.upsertQuiz])).2.2
      rfl (by norm_num [FinalResults.finalize_quiz_score, FinalResults.seedFromQuiz])

/-! ## Store state and idempotence of the aggregator -/

/-- The store collections read by the aggregator. -/
structure Store where
  quiz_results : List QuizRecord
  videos : List VideoRecord
  deriving Repr, DecidableEq

namespace FinalResults

/-- `calculate_combined_results` as a state transformer on the store:
it performs exactly two reads (`get_all_results`, `get_all_videos`) and
no writes, and returns the computed list together with the store it
leaves behind. -/
def calculate_combined_resultsRun (s : Store) : List CombinedResult × Store :=
  let quiz_results := s.quiz_results
  let video_results := s.videos
  (calculate_combined_results quiz_results video_results, s)

end FinalResults

/-- C9: running the aggregator leaves the store unchanged, and running it
twice on the same store produces identical `CombinedResult` lists. -/
theorem C9_aggregator_idempotent (s : Store) :
    (FinalResults.calculate_combined_resultsRun s).2 = s
    ∧ (FinalResults.calculate_combined_resultsRun
        ((FinalResults.calculate_combined_resultsRun s).2)).1 =
      (FinalResults.calculate_combined_resultsRun s).1 :=
  ⟨rfl, rfl⟩

/-! ## Per-student structure of the aggregator's output (C5) -/

namespace FinalResults

/-- The quiz-derived fields of a combined entry, used to state that the
video-merge and scoring passes do not touch them. -/
def quizView (r : CombinedResult) : String × ℚ × String × String × Bool :=
  (r.student_id, r.quiz_score, r.quiz_grade, r.quiz_feedback, r.quiz_submitted)

theorem find?_sid_map (f : CombinedResult → CombinedResult)
    (hf : ∀ r, (f r).student_id = r.student_id) (l : List CombinedResult)
    (id : String) :
    (l.map f).find? (fun r => r.student_id = id) =
      (l.find? (fun r => r.student_id = id)).map f := by
  rw [List.find?_map]
  have hp : ((fun r => decide (r.student_id = id)) ∘ f) =
      (fun r : CombinedResult => decide (r.student_id = id)) := by
    funext r
    simp [Function.comp, hf]
  rw [hp]

theorem find?_upsertQuiz (acc : List CombinedResult) (q : QuizRecord)
    (id : String) :
    (upsertQuiz acc q).find? (fun r => r.student_id = id) =
      if q.student_id ≠ "" ∧ id = q.student_id then some (seedFromQuiz q)
      else acc.find? (fun r => r.student_id = id) := by
  have hsid : ∀ r, ((fun r => if r.student_id = q.student_id then seedFromQuiz q
      else r) r).student_id = r.student_id := by
    intro r
    by_cases h : r.student_id = q.student_id <;> simp [h, seedFromQuiz]
  unfold upsertQuiz
  by_cases hq : q.student_id = ""
  · rw [if_pos hq, if_neg (by simp [hq])]
  · rw [if_neg hq]
    by_cases hid : id = q.student_id
    · rw [if_pos (show q.student_id ≠ "" ∧ id = q.student_id from ⟨hq, hid⟩)]
      by_cases hex : acc.any (fun r => r.student_id = q.student_id)
      · rw [if_pos hex, find?_sid_map _ hsid]
        have h1 : (acc.find? (fun r => r.student_id = id)).isSome := by
          rw [List.find?_isSome]
          obtain ⟨r0, hr0, hr0'⟩ := List.any_eq_true.mp hex
          refine ⟨r0, hr0, ?_⟩
          rw [hid]
          exact hr0'
        obtain ⟨r1, hr1⟩ := Option.isSome_iff_exists.mp h1
        have hr1' : r1.student_id = id := by
          have := List.find?_some hr1
          simpa using this
        rw [hr1]
        simp [hr1', hid]
      · rw [if_neg hex, List.find?_append]
        have h1 : acc.find? (fun r => r.student_id = id) = none := by
          rw [List.find?_eq_none]
          intro r hr
          by_contra hcon
          refine hex (List.any_eq_true.mpr ⟨r, hr, ?_⟩)
          rw [← hid]
          simpa using hcon
        rw [h1]
        simp [seedFromQuiz, hid]
    · rw [if_neg (show ¬(q.student_id ≠ "" ∧ id = q.student_id) from
        fun h => hid h.2)]
      by_cases hex : acc.any (fun r => r.student_id = q.student_id)
      · rw [if_pos hex, find?_sid_map _ hsid]
        cases hfind : acc.find? (fun r => r.student_id = id) with
        | none => rfl
        | some r1 =>
          have hr1 : r1.student_id = id := by
            have := List.find?_some hfind
            simpa using this
          have : r1.student_id ≠ q.student_id := by
            rw [hr1]; exact hid
          simp [this]
      · rw [if_neg hex, List.find?_append]
        cases hfind : acc.find? (fun r => r.student_id = id) with
        | some r1 => rfl
        | none => simp [seedFromQuiz, Ne.symm hid]

/-- Lookup after the whole quiz loop: the entry for a (non-empty) student
id is seeded from the LAST quiz record with that id in iteration order
("last write wins"), and ids without quiz records keep whatever the
accumulator held. -/
theorem find?_foldl_upsertQuiz (qs : List QuizRecord)
    (acc : List CombinedResult) (id : String) (hid : id ≠ "") :
    (qs.foldl upsertQuiz acc).find? (fun r => r.student_id = id) =
      match (qs.filter (fun q => q.student_id = id)).getLast? with
      | some q => some (seedFromQuiz q)
      | none => acc.find? (fun r => r.student_id = id) := by
  induction qs generalizing acc with
  | nil => rfl
  | cons q qs ih =>
    rw [List.foldl_cons, ih (upsertQuiz acc q), find?_upsertQuiz]
    by_cases hq : q.student_id = id
    · rw [List.filter_cons_of_pos (by simpa using hq)]
      cases hlast : (qs.filter (fun q => q.student_id = id)).getLast? with
      | some q' =>
        rw [List.getLast?_cons, hlast]
        rfl
      | none =>
        rw [List.getLast?_cons, hlast]
        have hcond : q.student_id ≠ "" ∧ id = q.student_id := by
          refine ⟨?_, hq.symm⟩
          rw [hq]
          exact hid
        rw [if_pos hcond]
        rfl
    · rw [List.filter_cons_of_neg (by simpa using hq)]
      cases hlast : (qs.filter (fun q => q.student_id = id)).getLast? with
      | some q' => rfl
      | none =>
        rw [if_neg (show ¬(q.student_id ≠ "" ∧ id = q.student_id) from
          fun h => hq h.2.symm)]

theorem keys_upsertQuiz (acc : List CombinedResult) (q : QuizRecord) :
    (upsertQuiz acc q).map (fun r => r.student_id) =
      if q.student_id = "" ∨ q.student_id ∈ acc.map (fun r => r.student_id) then
        acc.map (fun r => r.student_id)
      else acc.map (fun r => r.student_id) ++ [q.student_id] := by
  unfold upsertQuiz
  by_cases hq : q.student_id = ""
  · rw [if_pos hq, if_pos (Or.inl hq)]
  · rw [if_neg hq]
    by_cases hex : acc.any (fun r => r.student_id = q.student_id)
    · rw [if_pos hex]
      have hmem : q.student_id ∈ acc.map (fun r => r.student_id) := by
        obtain ⟨r0, hr0, hr0'⟩ := List.any_eq_true.mp hex
        exact List.mem_map.mpr ⟨r0, hr0, by simpa using hr0'⟩
      rw [if_pos (Or.inr hmem), List.map_map]
      apply List.map_congr_left
      intro r hr
      by_cases h : r.student_id = q.student_id <;>
        simp [h, seedFromQuiz, Function.comp]
    · have hmem : q.student_id ∉ acc.map (fun r => r.student_id) := by
        intro hc
        obtain ⟨r0, hr0, hr0'⟩ := List.mem_map.mp hc
        exact hex (List.any_eq_true.mpr ⟨r0, hr0, by simpa using hr0'⟩)
      rw [if_neg hex, if_neg (by push_neg; exact ⟨hq, hmem⟩)]
      simp [seedFromQuiz]

theorem keys_mergeVideo (acc : List CombinedResult) (v : VideoRecord) :
    (mergeVideo acc v).map (fun r => r.student_id) =
      acc.map (fun r => r.student_id) := by
  unfold mergeVideo
  by_cases hex : acc.any (fun r => r.student_id = v.student_id)
  · rw [if_pos hex, List.map_map]
    apply List.map_congr_left
    intro r hr
    by_cases h : r.student_id = v.student_id <;> simp [h, Function.comp]
  · rw [if_neg hex]

theorem keys_foldl_mergeVideo (vs : List VideoRecord)
    (acc : List CombinedResult) :
    ((vs.foldl mergeVideo acc).map (fun r => r.student_id)) =
      acc.map (fun r => r.student_id) := by
  induction vs generalizing acc with
  | nil => rfl
  | cons v vs ih => rw [List.foldl_cons, ih, keys_mergeVideo]

theorem keys_map_finalize (l : List CombinedResult) :
    ((l.map finalize).map (fun r => r.student_id)) =
      l.map (fun r => r.student_id) := by
  rw [List.map_map]
  apply List.map_congr_left
  intro r hr
  rfl

/-- The quiz loop keeps the key list free of the empty id and
duplicate-free. -/
theorem keys_foldl_upsertQuiz_nodup (qs : List QuizRecord)
    (acc : List CombinedResult)
    (h1 : "" ∉ acc.map (fun r => r.student_id))
    (h2 : (acc.map (fun r => r.student_id)).Nodup) :
    "" ∉ (qs.foldl upsertQuiz acc).map (fun r => r.student_id)
    ∧ ((qs.foldl upsertQuiz acc).map (fun r => r.student_id)).Nodup := by
  induction qs generalizing acc with
  | nil => exact ⟨h1, h2⟩
  | cons q qs ih =>
    rw [List.foldl_cons]
    apply ih
    · rw [keys_upsertQuiz]
      split_ifs with hc
      · exact h1
      · push_neg at hc
        simp only [List.mem_append, List.mem_singleton]
        rintro (h | h)
        · exact h1 h
        · exact hc.1 h.symm
    · rw [keys_upsertQuiz]
      split_ifs with hc
      · exact h2
      · push_neg at hc
        refine List.Nodup.append h2 (List.nodup_singleton _) ?_
        intro x hx hx'
        rw [List.mem_singleton] at hx'
        subst hx'
        exact hc.2 hx

/-- Membership in the key list after the quiz loop. -/
theorem mem_keys_foldl_upsertQuiz (qs : List QuizRecord)
    (acc : List CombinedResult) (id : String) :
    (id ∈ (qs.foldl upsertQuiz acc).map (fun r => r.student_id)) ↔
      id ∈ acc.map (fun r => r.student_id)
        ∨ (id ≠ "" ∧ id ∈ qs.map (fun q => q.student_id)) := by
  induction qs generalizing acc with
  | nil => simp
  | cons q qs ih =>
    rw [List.foldl_cons, ih, keys_upsertQuiz]
    by_cases hc : q.student_id = "" ∨ q.student_id ∈ acc.map (fun r => r.student_id)
    · rw [if_pos hc]
      simp only [List.map_cons, List.mem_cons]
      constructor
      · rintro (h | h)
        · exact Or.inl h
        · exact Or.inr ⟨h.1, Or.inr h.2⟩
      · rintro (h | ⟨hne, (h | h)⟩)
        · exact Or.inl h
        · subst h
          rcases hc with h' | h'
          · exact absurd h' hne
          · exact Or.inl h'
        · exact Or.inr ⟨hne, h⟩
    · rw [if_neg hc]
      push_neg at hc
      simp only [List.mem_append, List.mem_singleton, List.map_cons,
        List.mem_cons, List.not_mem_nil, or_false]
      constructor
      · rintro ((h | h) | h)
        · exact Or.inl h
        · subst h
          exact Or.inr ⟨hc.1, Or.inl rfl⟩
        · exact Or.inr ⟨h.1, Or.inr h.2⟩
      · rintro (h | ⟨hne, (h | h)⟩)
        · exact Or.inl (Or.inl h)
        · exact Or.inl (Or.inr h)
        · exact Or.inr ⟨hne, h⟩

/-- In a list whose key projection is duplicate-free, filtering by a key
finds at most one entry. -/
theorem length_filter_of_nodup_keys (l : List CombinedResult)
    (h : (l.map (fun r => r.student_id)).Nodup) (id : String) :
    (l.filter (fun r => r.student_id = id)).length =
      if id ∈ l.map (fun r => r.student_id) then 1 else 0 := by
  induction l with
  | nil => simp
  | cons a t ih =>
    rw [List.map_cons, List.nodup_cons] at h
    by_cases hz : a.student_id = id
    · rw [List.filter_cons_of_pos (by simpa using hz)]
      have hft : t.filter (fun r => r.student_id = id) = [] := by
        rw [List.filter_eq_nil_iff]
        intro r hr hc
        have : r.student_id = id := by simpa using hc
        exact h.1 (by rw [← hz] at this; exact List.mem_map.mpr ⟨r, hr, this⟩)
      rw [hft]
      have : id ∈ (a :: t).map (fun r => r.student_id) := by
        simp [hz]
      rw [if_pos this]
      rfl
    · rw [List.filter_cons_of_neg (by simpa using hz), ih h.2]
      have : (id ∈ (a :: t).map (fun r => r.student_id)) ↔
          id ∈ t.map (fun r => r.student_id) := by
        simp [Ne.symm hz]
      simp only [this]

/-- The video-merge pass never changes the quiz-derived fields of the
entry found for any student id. -/
theorem quizView_find?_mergeVideo (acc : List CombinedResult)
    (v : VideoRecord) (id : String) :
    ((mergeVideo acc v).find? (fun r => r.student_id = id)).map quizView =
      (acc.find? (fun r => r.student_id = id)).map quizView := by
  unfold mergeVideo
  by_cases hex : acc.any (fun r => r.student_id = v.student_id)
  · rw [if_pos hex, find?_sid_map]
    · cases acc.find? (fun r => r.student_id = id) with
      | none => rfl
      | some r1 =>
        by_cases h : r1.student_id = v.student_id <;> simp [h, quizView]
    · intro r
      by_cases h : r.student_id = v.student_id <;> simp [h]
  · rw [if_neg hex]

theorem quizView_find?_foldl_mergeVideo (vs : List VideoRecord)
    (acc : List CombinedResult) (id : String) :
    (((vs.foldl mergeVideo acc).find? (fun r => r.student_id = id)).map quizView) =
      (acc.find? (fun r => r.student_id = id)).map quizView := by
  induction vs generalizing acc with
  | nil => rfl
  | cons v vs ih => rw [List.foldl_cons, ih, quizView_find?_mergeVideo]

theorem quizView_find?_map_finalize (l : List CombinedResult) (id : String) :
    (((l.map finalize).find? (fun r => r.student_id = id)).map quizView) =
      (l.find? (fun r => r.student_id = id)).map quizView := by
  rw [find?_sid_map finalize (fun r => rfl)]
  cases l.find? (fun r => r.student_id = id) with
  | none => rfl
  | some r1 => rfl

end FinalResults

/-- Counterexample to C5 as stated: a quiz record whose student id is the
empty string appears in the record set, yet the aggregator produces no
`CombinedResult` at all for it (the quiz loop skips falsy ids); so it is
not true that every distinct student id appearing in the QuizResult set
gets exactly one entry. -/
theorem C5_aggregator_counterexample :
    ("" ∈ ([⟨"", 50, "F", "fb"⟩] : List QuizRecord).map (fun q => q.student_id))
    ∧ FinalResults.calculate_combined_results [⟨"", 50, "F", "fb"⟩] [] = [] := by
  constructor
  · simp
  · rfl

/-- C5 (amended: one entry per distinct NON-EMPTY student id; records
with an empty student id are skipped): the aggregator produces exactly
one `CombinedResult` per distinct non-empty student id appearing in the
quiz set; the entry's quiz fields come from the last quiz record with
that id in iteration order (last write wins); and ids without any quiz
record — in particular students with only a video submission — get no
entry. -/
theorem C5_aggregator_per_student (qs : List QuizRecord)
    (vs : List VideoRecord) :
    (∀ id : String,
      ((FinalResults.calculate_combined_results qs vs).filter
          (fun r => r.student_id = id)).length =
        if id ≠ "" ∧ id ∈ qs.map (fun q => q.student_id) then 1 else 0)
    ∧ (∀ (id : String) (q : QuizRecord), id ≠ "" →
        (qs.filter (fun q => q.student_id = id)).getLast? = some q →
        ∃ r, (FinalResults.calculate_combined_results qs vs).find?
            (fun r => r.student_id = id) = some r
          ∧ r.student_id = id
          ∧ r.quiz_score = q.score_percentage
          ∧ r.quiz_grade = q.grade
          ∧ r.quiz_feedback = q.feedback
          ∧ r.quiz_submitted = true)
    ∧ (∀ id : String, id ∉ qs.map (fun q => q.student_id) →
        ∀ r ∈ FinalResults.calculate_combined_results qs vs,
          r.student_id ≠ id) := by
  have hkeys : (FinalResults.calculate_combined_results qs vs).map
      (fun r => r.student_id) =
      (qs.foldl FinalResults.upsertQuiz []).map (fun r => r.student_id) := by
    unfold FinalResults.calculate_combined_results
    rw [FinalResults.keys_map_finalize, FinalResults.keys_foldl_mergeVideo]
  have hmem : ∀ id : String,
      (id ∈ (FinalResults.calculate_combined_results qs vs).map
        (fun r => r.student_id)) ↔
      (id ≠ "" ∧ id ∈ qs.map (fun q => q.student_id)) := by
    intro id
    rw [hkeys, FinalResults.mem_keys_foldl_upsertQuiz]
    simp
  refine ⟨?_, ?_, ?_⟩
  · intro id
    have hnodup := (FinalResults.keys_foldl_upsertQuiz_nodup qs []
      (by simp) (by simp)).2
    rw [FinalResults.length_filter_of_nodup_keys _ (by rw [hkeys]; exact hnodup) id]
    by_cases h : id ≠ "" ∧ id ∈ qs.map (fun q => q.student_id)
    · rw [if_pos ((hmem id).mpr h), if_pos h]
    · rw [if_neg (fun hc => h ((hmem id).mp hc)), if_neg h]
  · intro id q hid hlast
    have h1 := FinalResults.find?_foldl_upsertQuiz qs [] id hid
    rw [hlast] at h1
    have h2 : ((FinalResults.calculate_combined_results qs vs).find?
        (fun r => r.student_id = id)).map FinalResults.quizView =
        some (FinalResults.quizView (FinalResults.seedFromQuiz q)) := by
      unfold FinalResults.calculate_combined_results
      rw [FinalResults.quizView_find?_map_finalize,
        FinalResults.quizView_find?_foldl_mergeVideo, h1]
      rfl
    cases hfind : (FinalResults.calculate_combined_results qs vs).find?
        (fun r => r.student_id = id) with
    | none => rw [hfind] at h2; exact absurd h2 (by simp)
    | some r =>
      rw [hfind] at h2
      have hsid : r.student_id = id := by
        have := List.find?_some hfind
        simpa using this
      have h3 : FinalResults.quizView r =
          FinalResults.quizView (FinalResults.seedFromQuiz q) := by
        simpa using h2
      have h4 := h3
      unfold FinalResults.quizView FinalResults.seedFromQuiz at h4
      simp only [Prod.mk.injEq] at h4
      exact ⟨r, rfl, hsid, h4.2.1, h4.2.2.1, h4.2.2.2.1, h4.2.2.2.2⟩
  · intro id hid r hr hcon
    have : r.student_id ∈ (FinalResults.calculate_combined_results qs vs).map
        (fun r => r.student_id) := List.mem_map.mpr ⟨r, hr, rfl⟩
    have h5 := (hmem r.student_id).mp this
    rw [hcon] at h5
    exact hid h5.2

/-- Witness for C5: two quiz records for student `"s1"` (scores 70 then
80) and one stray video for `"ghost"`; `"s1"` gets exactly one entry
carrying the LAST quiz score 80, and `"ghost"` gets none. -/
theorem C5_aggregator_per_student_witness :
    ((FinalResults.calculate_combined_results
        [⟨"s1", 70, "C", "first"⟩, ⟨"s1", 80, "B", "second"⟩]
        [⟨"ghost", 90, "A", "fb", "link"⟩]).filter
          (fun r => r.student_id = "s1")).length = 1
    ∧ (∃ r, (FinalResults.calculate_combined_results
        [⟨"s1", 70, "C", "first"⟩, ⟨"s1", 80, "B", "second"⟩]
        [⟨"ghost", 90, "A", "fb", "link"⟩]).find?
          (fun r => r.student_id = "s1") = some r ∧ r.quiz_score = 80)
    ∧ (∀ r ∈ FinalResults.calculate_combined_results
        [⟨"s1", 70, "C", "first"⟩, ⟨"s1", 80, "B", "second"⟩]
        [⟨"ghost", 90, "A", "fb", "link"⟩], r.student_id ≠ "ghost") := by
  have h := C5_aggregator_per_student
    [⟨"s1", 70, "C", "first"⟩, ⟨"s1", 80, "B", "second"⟩]
    [⟨"ghost", 90, "A", "fb", "link"⟩]
  refine ⟨?_, ?_, ?_⟩
  · rw [h.1 "s1"]
    simp
  · obtain ⟨r, hfind, _, hscore, _⟩ := h.2.1 "s1" ⟨"s1", 80, "B", "second"⟩
      (by simp) (by decide)
    exact ⟨r, hfind, hscore⟩
  · exact h.2.2 "ghost" (by simp)

/-! ## The selection engine

`FinalResultsManager.select_top_students` (src/utils/video_utils.py,
lines 253-268). Python's `sorted(..., key=lambda x: x["total_score"],
reverse=True)` is a stable descending sort, modelled by `mergeSort` with
the comparator "left total score at least right total score" (which keeps
the left element on ties). `int(total_students * (percentage / 100))`
truncates; for the non-negative percentages the engine is called with it
is the floor. -/

namespace FinalResults

/-- The sort comparator: `a` may stay before `b` iff
`b.total_score ≤ a.total_score`. On ties it keeps input order, which is
exactly Python's stable `reverse=True` sort. -/
def totalDescLe (a b : CombinedResult) : Bool :=
  decide (b.total_score ≤ a.total_score)

theorem totalDescLe_trans : ∀ a b c : CombinedResult,
    totalDescLe a b → totalDescLe b c → totalDescLe a c := by
  intro a b c hab hbc
  simp only [totalDescLe, decide_eq_true_eq] at *
  linarith

theorem totalDescLe_total : ∀ a b : CombinedResult,
    totalDescLe a b || totalDescLe b a := by
  intro a b
  simp only [totalDescLe, Bool.or_eq_true, decide_eq_true_eq]
  exact le_total _ _

/-- The stable descending sort on total score. -/
def sortByTotalDesc (l : List CombinedResult) : List CombinedResult :=
  l.mergeSort totalDescLe

/-- `FinalResultsManager.select_top_students`
(src/utils/video_utils.py, lines 253-268), as a function of the
aggregator's output. -/
def select_top_students (percentage : ℚ)
    (combined_results : List CombinedResult) : List CombinedResult :=
  let sorted_results := sortByTotalDesc combined_results
  let num_to_select :=
    max 1 (⌊(combined_results.length : ℚ) * (percentage / 100)⌋.toNat)
  sorted_results.take num_to_select

end FinalResults

/-- C2: the selection engine stably sorts by total score descending and
returns the first `max 1 ⌊n * p / 100⌋` entries; the number selected is
`min (max 1 ⌊n * p / 100⌋) n` (so 2 of 10 at `p = 20`, 1 of 10 at
`p = 0`, and 0 of 0 — the empty input yields an empty selection); the
selection is sorted by total score descending; and any two entries in
input order with the left total at least the right total keep their
relative order in the sorted list (stability: ties keep input order). -/
theorem C2_select_top_students (results : List CombinedResult) (p : ℚ)
    (hp : 0 ≤ p) :
    FinalResults.select_top_students p results =
      (FinalResults.sortByTotalDesc results).take
        (max 1 (⌊(results.length : ℚ) * (p / 100)⌋.toNat))
    ∧ (FinalResults.select_top_students p results).length =
        min (max 1 (⌊(results.length : ℚ) * (p / 100)⌋.toNat)) results.length
    ∧ (FinalResults.select_top_students p results).Pairwise
        (fun a b => b.total_score ≤ a.total_score)
    ∧ (∀ a b : CombinedResult, List.Sublist [a, b] results →
        b.total_score ≤ a.total_score →
        List.Sublist [a, b] (FinalResults.sortByTotalDesc results))
    ∧ (results = [] → FinalResults.select_top_students p results = []) := by
  refine ⟨rfl, ?_, ?_, ?_, ?_⟩
  · simp [FinalResults.select_top_students, FinalResults.sortByTotalDesc]
  · have hs := List.sorted_mergeSort FinalResults.totalDescLe_trans
      FinalResults.totalDescLe_total results
    have hs' : (FinalResults.sortByTotalDesc results).Pairwise
        (fun a b => b.total_score ≤ a.total_score) := by
      refine hs.imp ?_
      intro a b h
      simpa [FinalResults.totalDescLe] using h
    exact hs'.sublist (List.take_sublist _ _)
  · intro a b hab hle
    exact List.pair_sublist_mergeSort FinalResults.totalDescLe_trans
      FinalResults.totalDescLe_total
      (by simpa [FinalResults.totalDescLe] using hle) hab
  · intro h
    subst h
    simp [FinalResults.select_top_students, FinalResults.sortByTotalDesc]

/-- Witness for C2: with 10 equal students `p = 20` selects exactly 2 and
`p = 0` selects exactly 1; with 0 students the selection is empty. -/
theorem C2_select_top_students_witness :
    (FinalResults.select_top_students 20
      (List.replicate 10 (FinalResults.seedFromQuiz ⟨"s", 50, "F", ""⟩))).length = 2
    ∧ (FinalResults.select_top_students 0
      (List.replicate 10 (FinalResults.seedFromQuiz ⟨"s", 50, "F", ""⟩))).length = 1
    ∧ FinalResults.select_top_students 20 ([] : List CombinedResult) = [] := by
  have h20 := C2_select_top_students
    (List.replicate 10 (FinalResults.seedFromQuiz ⟨"s", 50, "F", ""⟩)) 20
    (by norm_num)
  have h0 := C2_select_top_students
    (List.replicate 10 (FinalResults.seedFromQuiz ⟨"s", 50, "F", ""⟩)) 0
    (by norm_num)
  have hnil := C2_select_top_students ([] : List CombinedResult) 20 (by norm_num)
  refine ⟨?_, ?_, hnil.2.2.2.2 rfl⟩
  · rw [h20.2.1]
    norm_num
    decide
  · rw [h0.2.1]
    norm_num

/-! ## Releasing final results

`FinalResultsManager.release_final_results` (src/utils/video_utils.py,
lines 274-312). Each loop iteration persists a `FinalResult` via
`add_final_result` (which returns a fresh id, or a falsy value / raises
on failure — both counted as an error by the inner `try/except`) and, on
success, sends a selection email (`_send_final_selection_email` swallows
its own exceptions, so it never affects the counters). Persistence is
modelled as an oracle from the student entry to an optional new id. -/

/-- The dictionary returned by `release_final_results`. -/
structure ReleaseResult where
  success : Bool
  message : String
  success_count : ℕ
  error_count : ℕ
  deriving Repr, DecidableEq

namespace FinalResults

/-- `FinalResultsManager.release_final_results`
(src/utils/video_utils.py, lines 274-312), with the store write
abstracted as `add_final_result`. -/
def release_final_results (add_final_result : CombinedResult → Option String)
    (selected_students : List CombinedResult) : ReleaseResult :=
  let counts := selected_students.foldl
    (fun (counts : ℕ × ℕ) student_result =>
      match add_final_result student_result with
      | some _ => (counts.1 + 1, counts.2)
      | none => (counts.1, counts.2 + 1)) (0, 0)
  { success := true
    message := "Final results released successfully! " ++ toString counts.1 ++
      " students notified, " ++ toString counts.2 ++ " errors."
    success_count := counts.1
    error_count := counts.2 }

theorem release_counts_spec (add_final_result : CombinedResult → Option String)
    (l : List CombinedResult) (a b : ℕ) :
    l.foldl (fun (counts : ℕ × ℕ) student_result =>
        match add_final_result student_result with
        | some _ => (counts.1 + 1, counts.2)
        | none => (counts.1, counts.2 + 1)) (a, b) =
      (a + (l.filter (fun s => (add_final_result s).isSome)).length,
        b + (l.filter (fun s => (add_final_result s).isNone)).length) := by
  induction l generalizing a b with
  | nil => simp
  | cons s t ih =>
    rw [List.foldl_cons]
    cases hp : add_final_result s with
    | some id =>
      simp only [hp]
      rw [ih, List.filter_cons_of_pos (by simp [hp]),
        List.filter_cons_of_neg (by simp [hp])]
      simp only [List.length_cons, Prod.mk.injEq]
      exact ⟨by omega, trivial⟩
    | none =>
      simp only [hp]
      rw [ih, List.filter_cons_of_neg (by simp [hp]),
        List.filter_cons_of_pos (by simp [hp])]
      simp only [List.length_cons, Prod.mk.injEq]
      exact ⟨trivial, by omega⟩

theorem length_filter_isSome_add_isNone
    (add_final_result : CombinedResult → Option String)
    (l : List CombinedResult) :
    (l.filter (fun s => (add_final_result s).isSome)).length +
      (l.filter (fun s => (add_final_result s).isNone)).length = l.length := by
  induction l with
  | nil => rfl
  | cons s t ih =>
    cases hp : add_final_result s with
    | some id =>
      rw [List.filter_cons_of_pos (by simp [hp]),
        List.filter_cons_of_neg (by simp [hp])]
      simp only [List.length_cons]
      omega
    | none =>
      rw [List.filter_cons_of_neg (by simp [hp]),
        List.filter_cons_of_pos (by simp [hp])]
      simp only [List.length_cons]
      omega

end FinalResults

/-- C6: `release_final_results` processes every selected entry — the
success counter counts exactly the entries whose persistence succeeded
and the error counter exactly those whose persistence failed, so a
per-student failure never stops the remaining students from being
processed; the two counters always sum to the number of selected
students; and the call as a whole reports success regardless of
per-student failures. -/
theorem C6_release_final_results
    (add_final_result : CombinedResult → Option String)
    (selected_students : List CombinedResult) :
    (FinalResults.release_final_results add_final_result
        selected_students).success = true
    ∧ (FinalResults.release_final_results add_final_result
        selected_students).success_count =
      (selected_students.filter (fun s => (add_final_result s).isSome)).length
    ∧ (FinalResults.release_final_results add_final_result
        selected_students).error_count =
      (selected_students.filter (fun s => (add_final_result s).isNone)).length
    ∧ (FinalResults.release_final_results add_final_result
          selected_students).success_count +
        (FinalResults.release_final_results add_final_result
          selected_students).error_count = selected_students.length := by
  have h := FinalResults.release_counts_spec add_final_result selected_students 0 0
  refine ⟨rfl, ?_, ?_, ?_⟩
  · show (selected_students.foldl _ (0, 0)).1 = _
    rw [h]
    simp
  · show (selected_students.foldl _ (0, 0)).2 = _
    rw [h]
    simp
  · show (selected_students.foldl _ (0, 0)).1 +
      (selected_students.foldl _ (0, 0)).2 = _
    rw [h]
    simpa using
      FinalResults.length_filter_isSome_add_isNone add_final_result selected_students

/-! ## Google Drive link validation

`VideoAnalyzerAgent.validate_google_drive_link`
(src/agents/video_analyzer.py, lines 31-78). The three regex patterns

* `https://drive\.google\.com/file/d/([a-zA-Z0-9_-]+)`
* `https://drive\.google\.com/open\?id=([a-zA-Z0-9_-]+)`
* `https://docs\.google\.com/.*?/d/([a-zA-Z0-9_-]+)`

are tried in order, each with `re.search` (unanchored: the earliest
start position wins, and for the third pattern the non-greedy `.*?`
takes the shortest stretch of non-newline characters). The embedding
implements this search directly on character lists. The `accessible`
field (a best-effort network probe whose failure is swallowed) is a
network effect outside the embedding and is not modelled. -/

/-- The regex character class `[a-zA-Z0-9_-]`. -/
def charOk (c : Char) : Bool := c.isAlphanum || c = '_' || c = '-'

/-- Literal part of the first accepted URL shape. -/
def drivePat1 : List Char := "https://drive.google.com/file/d/".data

/-- Literal part of the second accepted URL shape. -/
def drivePat2 : List Char := "https://drive.google.com/open?id=".data

/-- Literal head of the third accepted URL shape. -/
def docsLit : List Char := "https://docs.google.com/".data

/-- Capture `([a-zA-Z0-9_-]+)` at the start of `s`: the maximal nonempty
run of id characters, if any. -/
def matchRun (s : List Char) : Option (List Char) :=
  let run := s.takeWhile charOk
  if run.isEmpty then none else some run

/-- Match `LIT([a-zA-Z0-9_-]+)` anchored at the start of `s`. -/
def matchLitRun (lit s : List Char) : Option (List Char) :=
  if lit.isPrefixOf s then matchRun (s.drop lit.length) else none

/-- `re.search`: try the anchored matcher at every start position, left
to right, returning the first capture. -/
def searchFirst (f : List Char → Option (List Char)) :
    List Char → Option (List Char)
  | [] => f []
  | c :: rest =>
    match f (c :: rest) with
    | some r => some r
    | none => searchFirst f rest

/-- The part of the third pattern after its literal:
`.*?/d/([a-zA-Z0-9_-]+)`. Scan forward (never across a newline, which
`.` does not match) for the shortest stretch followed by `/d/` and a
nonempty id run. -/
def matchDocsTail : List Char → Option (List Char)
  | [] => none
  | c :: rest =>
    match matchLitRun ['/', 'd', '/'] (c :: rest) with
    | some run => some run
    | none => if c = '\n' then none else matchDocsTail rest

/-- The third pattern anchored at the start of `s`. -/
def matchDocs (s : List Char) : Option (List Char) :=
  if docsLit.isPrefixOf s then matchDocsTail (s.drop docsLit.length) else none

/-- The pattern loop of `validate_google_drive_link`: each pattern is
searched over the whole link, in order; the first pattern that matches
anywhere supplies the captured file id. -/
def firstPatternMatch (s : List Char) : Option (List Char) :=
  match searchFirst (matchLitRun drivePat1) s with
  | some r => some r
  | none =>
    match searchFirst (matchLitRun drivePat2) s with
    | some r => some r
    | none => searchFirst matchDocs s

/-- The dictionary returned by `validate_google_drive_link` (without the
`accessible` network probe). -/
structure LinkValidation where
  valid : Bool
  message : String
  file_id : Option String
  direct_link : Option String
  deriving Repr, DecidableEq

namespace VideoAnalyzer

/-- `VideoAnalyzerAgent.validate_google_drive_link`
(src/agents/video_analyzer.py, lines 31-78). -/
def validate_google_drive_link (video_link : String) : LinkValidation :=
  match firstPatternMatch video_link.data with
  | none =>
    { valid := false
      message := "Invalid Google Drive link format. Please provide a valid Google Drive video link."
      file_id := none
      direct_link := none }
  | some fid =>
    { valid := true
      message := "Valid Google Drive link"
      file_id := some (String.mk fid)
      direct_link := some ("https://drive.google.com/file/d/" ++
        String.mk fid ++ "/view") }

end VideoAnalyzer

/-- The string contains `LIT` immediately followed by at least one id
character, somewhere inside it. -/
def OccursPat (lit s : List Char) : Prop :=
  ∃ pre idc post, s = pre ++ lit ++ idc ++ post ∧ idc ≠ [] ∧ ∀ c ∈ idc, charOk c

/-- The string contains the third URL shape somewhere inside it: the
docs literal, then a newline-free stretch, then `/d/` and at least one
id character. -/
def OccursDocs (s : List Char) : Prop :=
  ∃ pre mid idc post,
    s = pre ++ docsLit ++ mid ++ ['/', 'd', '/'] ++ idc ++ post
    ∧ (∀ c ∈ mid, c ≠ '\n') ∧ idc ≠ [] ∧ ∀ c ∈ idc, charOk c

theorem matchRun_isSome_iff (s : List Char) :
    (matchRun s).isSome ↔ ∃ c t, s = c :: t ∧ charOk c := by
  unfold matchRun
  cases s with
  | nil => simp
  | cons c t =>
    by_cases h : charOk c
    · simp [List.takeWhile_cons, h]
    · simp [List.takeWhile_cons, h]

theorem matchLitRun_isSome_iff (lit s : List Char) :
    (matchLitRun lit s).isSome ↔
      ∃ idc post, s = lit ++ idc ++ post ∧ idc ≠ [] ∧ ∀ c ∈ idc, charOk c := by
  unfold matchLitRun
  constructor
  · intro h
    by_cases hp : lit.isPrefixOf s
    · rw [if_pos hp] at h
      obtain ⟨rest, hrest⟩ := List.isPrefixOf_iff_prefix.mp hp
      subst hrest
      rw [List.drop_left] at h
      obtain ⟨c, t, hct, hc⟩ := (matchRun_isSome_iff rest).mp h
      subst hct
      refine ⟨[c], t, by simp, by simp, ?_⟩
      intro x hx
      rw [List.mem_singleton] at hx
      subst hx
      exact hc
    · rw [if_neg hp] at h
      simp at h
  · rintro ⟨idc, post, hs, hne, hok⟩
    subst hs
    rw [if_pos (List.isPrefixOf_iff_prefix.mpr ⟨idc ++ post, by simp⟩),
      List.append_assoc, List.drop_left]
    cases idc with
    | nil => exact absurd rfl hne
    | cons c t =>
      rw [matchRun_isSome_iff]
      exact ⟨c, t ++ post, by simp, hok c (by simp)⟩

theorem searchFirst_isSome_iff (f : List Char → Option (List Char))
    (s : List Char) :
    (searchFirst f s).isSome ↔ ∃ n, (f (s.drop n)).isSome := by
  induction s with
  | nil =>
    unfold searchFirst
    constructor
    · intro h
      exact ⟨0, h⟩
    · rintro ⟨n, h⟩
      rwa [List.drop_nil] at h
  | cons c rest ih =>
    unfold searchFirst
    cases hf : f (c :: rest) with
    | some r =>
      simp only [Option.isSome_some, true_iff]
      exact ⟨0, by simp [hf]⟩
    | none =>
      rw [ih]
      constructor
      · rintro ⟨n, h⟩
        exact ⟨n + 1, by simpa using h⟩
      · rintro ⟨n, h⟩
        cases n with
        | zero => rw [List.drop_zero, hf] at h; simp at h
        | succ m => exact ⟨m, by simpa using h⟩

theorem searchFirst_eq_some (f : List Char → Option (List Char))
    (s : List Char) (r : List Char) (h : searchFirst f s = some r) :
    ∃ n, f (s.drop n) = some r ∧ ∀ m, m < n → f (s.drop m) = none := by
  induction s with
  | nil =>
    refine ⟨0, by simpa [searchFirst] using h, ?_⟩
    intro m hm
    exact absurd hm (Nat.not_lt_zero m)
  | cons c rest ih =>
    unfold searchFirst at h
    cases hf : f (c :: rest) with
    | some r' =>
      rw [hf] at h
      refine ⟨0, ?_, ?_⟩
      · simpa [hf] using h
      · intro m hm
        exact absurd hm (Nat.not_lt_zero m)
    | none =>
      rw [hf] at h
      obtain ⟨n, h1, h2⟩ := ih h
      refine ⟨n + 1, by simpa using h1, ?_⟩
      intro m hm
      cases m with
      | zero => simpa using hf
      | succ k =>
        have : k < n := by omega
        simpa using h2 k this

theorem exists_drop_decomp_iff (lit s : List Char) :
    (∃ n, ∃ idc post, s.drop n = lit ++ idc ++ post ∧ idc ≠ [] ∧
      ∀ c ∈ idc, charOk c) ↔ OccursPat lit s := by
  constructor
  · rintro ⟨n, idc, post, hd, hne, hok⟩
    refine ⟨s.take n, idc, post, ?_, hne, hok⟩
    conv_lhs => rw [← List.take_append_drop n s]
    rw [hd]
    simp [List.append_assoc]
  · rintro ⟨pre, idc, post, hs, hne, hok⟩
    subst hs
    exact ⟨pre.length, idc, post,
      by rw [show pre ++ lit ++ idc ++ post = pre ++ (lit ++ idc ++ post) by simp,
        List.drop_left], hne, hok⟩

theorem occursPat_iff_search (lit s : List Char) :
    OccursPat lit s ↔ (searchFirst (matchLitRun lit) s).isSome := by
  rw [searchFirst_isSome_iff, ← exists_drop_decomp_iff]
  constructor
  · rintro ⟨n, hn⟩
    exact ⟨n, (matchLitRun_isSome_iff lit _).mpr hn⟩
  · rintro ⟨n, hn⟩
    exact ⟨n, (matchLitRun_isSome_iff lit _).mp hn⟩

theorem matchDocsTail_isSome_iff (s : List Char) :
    (matchDocsTail s).isSome ↔
      ∃ mid idc post, s = mid ++ ['/', 'd', '/'] ++ idc ++ post
        ∧ (∀ c ∈ mid, c ≠ '\n') ∧ idc ≠ [] ∧ ∀ c ∈ idc, charOk c := by
  induction s with
  | nil =>
    simp only [matchDocsTail, Option.isSome_none, Bool.false_eq_true, false_iff]
    rintro ⟨mid, idc, post, h, hmid, hne, hok⟩
    have hlen := congrArg List.length h
    simp [List.length_append] at hlen
    omega
  | cons c rest ih =>
    show (match matchLitRun ['/', 'd', '/'] (c :: rest) with
      | some run => some run
      | none => if c = '\n' then none else matchDocsTail rest).isSome ↔ _
    cases hm : matchLitRun ['/', 'd', '/'] (c :: rest) with
    | some run =>
      simp only [Option.isSome_some, true_iff]
      have h1 : (matchLitRun ['/', 'd', '/'] (c :: rest)).isSome := by
        rw [hm]; rfl
      obtain ⟨idc, post, hs, hne, hok⟩ := (matchLitRun_isSome_iff _ _).mp h1
      exact ⟨[], idc, post, by simp [hs], by simp, hne, hok⟩
    | none =>
      by_cases hc : c = '\n'
      · rw [if_pos hc]
        simp only [Option.isSome_none, Bool.false_eq_true, false_iff]
        rintro ⟨mid, idc, post, h, hmid, hne, hok⟩
        cases mid with
        | nil =>
          have h2 : (matchLitRun ['/', 'd', '/'] (c :: rest)).isSome :=
            (matchLitRun_isSome_iff _ _).mpr ⟨idc, post, by simpa using h, hne, hok⟩
          rw [hm] at h2
          simp at h2
        | cons m ms =>
          simp only [List.cons_append, List.append_assoc, List.cons.injEq] at h
          exact (hmid m (by simp)) (h.1 ▸ hc)
      · rw [if_neg hc, ih]
        constructor
        · rintro ⟨mid, idc, post, hs, hmid, hne, hok⟩
          refine ⟨c :: mid, idc, post, by simp [hs], ?_, hne, hok⟩
          intro x hx
          rcases List.mem_cons.mp hx with h | h
          · subst h; exact hc
          · exact hmid x h
        · rintro ⟨mid, idc, post, hs, hmid, hne, hok⟩
          cases mid with
          | nil =>
            have h2 : (matchLitRun ['/', 'd', '/'] (c :: rest)).isSome :=
              (matchLitRun_isSome_iff _ _).mpr
                ⟨idc, post, by simpa using hs, hne, hok⟩
            rw [hm] at h2
            simp at h2
          | cons m ms =>
            simp only [List.cons_append, List.append_assoc, List.cons.injEq] at hs
            refine ⟨ms, idc, post, by simp [hs.2], ?_, hne, hok⟩
            intro x hx
            exact hmid x (by simp [hx])

theorem matchDocs_isSome_iff (s : List Char) :
    (matchDocs s).isSome ↔
      ∃ mid idc post, s = docsLit ++ mid ++ ['/', 'd', '/'] ++ idc ++ post
        ∧ (∀ c ∈ mid, c ≠ '\n') ∧ idc ≠ [] ∧ ∀ c ∈ idc, charOk c := by
  unfold matchDocs
  constructor
  · intro h
    by_cases hp : docsLit.isPrefixOf s
    · rw [if_pos hp] at h
      obtain ⟨rest, hrest⟩ := List.isPrefixOf_iff_prefix.mp hp
      subst hrest
      rw [List.drop_left] at h
      obtain ⟨mid, idc, post, hs, hmid, hne, hok⟩ :=
        (matchDocsTail_isSome_iff rest).mp h
      exact ⟨mid, idc, post, by simp [hs], hmid, hne, hok⟩
    · rw [if_neg hp] at h
      simp at h
  · rintro ⟨mid, idc, post, hs, hmid, hne, hok⟩
    subst hs
    have hp : docsLit.isPrefixOf
        (docsLit ++ mid ++ ['/', 'd', '/'] ++ idc ++ post) := by
      rw [List.isPrefixOf_iff_prefix]
      exact ⟨mid ++ ['/', 'd', '/'] ++ idc ++ post, by simp⟩
    rw [if_pos hp,
      show docsLit ++ mid ++ ['/', 'd', '/'] ++ idc ++ post =
        docsLit ++ (mid ++ ['/', 'd', '/'] ++ idc ++ post) by simp,
      List.drop_left, matchDocsTail_isSome_iff]
    exact ⟨mid, idc, post, rfl, hmid, hne, hok⟩

theorem occursDocs_iff_search (s : List Char) :
    OccursDocs s ↔ (searchFirst matchDocs s).isSome := by
  rw [searchFirst_isSome_iff]
  constructor
  · rintro ⟨pre, mid, idc, post, hs, hmid, hne, hok⟩
    subst hs
    refine ⟨pre.length, ?_⟩
    rw [show pre ++ docsLit ++ mid ++ ['/', 'd', '/'] ++ idc ++ post =
      pre ++ (docsLit ++ mid ++ ['/', 'd', '/'] ++ idc ++ post) by simp,
      List.drop_left, matchDocs_isSome_iff]
    exact ⟨mid, idc, post, rfl, hmid, hne, hok⟩
  · rintro ⟨n, hn⟩
    obtain ⟨mid, idc, post, hs, hmid, hne, hok⟩ :=
      (matchDocs_isSome_iff _).mp hn
    refine ⟨s.take n, mid, idc, post, ?_, hmid, hne, hok⟩
    conv_lhs => rw [← List.take_append_drop n s]
    rw [hs]
    simp

theorem firstPatternMatch_isSome_iff (s : List Char) :
    (firstPatternMatch s).isSome ↔
      OccursPat drivePat1 s ∨ OccursPat drivePat2 s ∨ OccursDocs s := by
  rw [occursPat_iff_search, occursPat_iff_search, occursDocs_iff_search]
  unfold firstPatternMatch
  cases h1 : searchFirst (matchLitRun drivePat1) s with
  | some r => simp [h1]
  | none =>
    cases h2 : searchFirst (matchLitRun drivePat2) s with
    | some r => simp [h1, h2]
    | none => simp [h1, h2]

/-- C10: link validation is an unanchored substring search. A string is
accepted (`valid = true`) exactly when one of the three accepted Drive
URL shapes occurs ANYWHERE inside it — an arbitrary prefix and suffix,
including a surrounding non-Drive URL, do not prevent acceptance — and
only strings containing no such shape are rejected. The returned file id
is the capture of the pattern loop (patterns tried in order, each over
the whole string), and when the first pattern matches, the id comes from
its first (leftmost) occurrence: every earlier start position fails. -/
theorem C10_validate_google_drive_link (link : String) :
    ((VideoAnalyzer.validate_google_drive_link link).valid = true ↔
      (OccursPat drivePat1 link.data ∨ OccursPat drivePat2 link.data ∨
        OccursDocs link.data))
    ∧ ((VideoAnalyzer.validate_google_drive_link link).file_id =
        (firstPatternMatch link.data).map String.mk)
    ∧ (∀ r, searchFirst (matchLitRun drivePat1) link.data = some r →
        (VideoAnalyzer.validate_google_drive_link link).file_id =
          some (String.mk r)
        ∧ ∃ n, matchLitRun drivePat1 (link.data.drop n) = some r
          ∧ ∀ m, m < n → matchLitRun drivePat1 (link.data.drop m) = none) := by
  refine ⟨?_, ?_, ?_⟩
  · rw [← firstPatternMatch_isSome_iff]
    unfold VideoAnalyzer.validate_google_drive_link
    cases hf : firstPatternMatch link.data <;> simp [hf]
  · unfold VideoAnalyzer.validate_google_drive_link
    cases hf : firstPatternMatch link.data <;> simp [hf]
  · intro r hr
    have hfirst : firstPatternMatch link.data = some r := by
      unfold firstPatternMatch
      rw [hr]
    constructor
    · unfold VideoAnalyzer.validate_google_drive_link
      rw [hfirst]
    · exact searchFirst_eq_some _ _ _ hr

/-- Witness for C10: a non-Drive URL embedding the first pattern is
accepted with the embedded file id extracted, and a plain non-Drive URL
is rejected. -/
theorem C10_validate_google_drive_link_witness :
    (VideoAnalyzer.validate_google_drive_link
      "https://example.com/redirect?u=https://drive.google.com/file/d/ABC123xyz").valid
        = true
    ∧ (VideoAnalyzer.validate_google_drive_link
      "https://example.com/redirect?u=https://drive.google.com/file/d/ABC123xyz").file_id
        = some "ABC123xyz"
    ∧ (VideoAnalyzer.validate_google_drive_link
        "https://example.com/video").valid = false := by
  have h := C10_validate_google_drive_link
    "https://example.com/redirect?u=https://drive.google.com/file/d/ABC123xyz"
  refine ⟨?_, by decide, by decide⟩
  exact h.1.mpr (Or.inl ⟨"https://example.com/redirect?u=".data,
    "ABC123xyz".data, [], by decide, by decide, by decide⟩)

/-! ## Video submission

`VideoSubmissionManager.submit_video` (src/utils/video_utils.py, lines
17-69) over `firebase_manager.get_video_by_student` (first record whose
`student_id` matches, in collection order) and `add_video_submission`
(appends the record and returns a fresh id, or a falsy id on failure —
modelled by the `new_video_id` oracle). The submission timestamp
`datetime.now().isoformat()` is the `now` parameter; the confirmation
email is a notification side effect with no influence on the result. -/

/-- A stored video submission record, as written by `submit_video`. -/
structure VideoSubmission where
  student_id : String
  video_link : String
  topic : String
  submitted_at : String
  status : String
  file_id : String
  direct_link : String
  deriving Repr, DecidableEq

/-- The dictionary returned by `submit_video`. -/
structure SubmitResult where
  success : Bool
  message : String
  video_id : Option String
  deriving Repr, DecidableEq

namespace VideoSubmissions

/-- `firebase_manager.get_video_by_student`: first stored video whose
`student_id` matches. -/
def get_video_by_student (videos : List VideoSubmission)
    (student_id : String) : Option VideoSubmission :=
  videos.find? (fun v => v.student_id = student_id)

/-- `VideoSubmissionManager.submit_video` (src/utils/video_utils.py,
lines 17-69), returning the result dictionary and the video collection
after the call. -/
def submit_video (videos : List VideoSubmission)
    (student_id student_email video_link topic now : String)
    (new_video_id : Option String) : SubmitResult × List VideoSubmission :=
  let validation := VideoAnalyzer.validate_google_drive_link video_link
  if validation.valid = false then
    ({ success := false, message := validation.message, video_id := none },
      videos)
  else
    match get_video_by_student videos student_id with
    | some _ =>
      ({ success := false
         message := "You have already submitted a video. Only one submission is allowed per student."
         video_id := none }, videos)
    | none =>
      let video_data : VideoSubmission :=
        { student_id := student_id
          video_link := video_link
          topic := topic
          submitted_at := now
          status := "submitted"
          file_id := validation.file_id.getD ""
          direct_link := validation.direct_link.getD video_link }
      match new_video_id with
      | some video_id =>
        ({ success := true
           message := "Video submitted successfully! You will receive a confirmation email shortly."
           video_id := some video_id }, videos ++ [video_data])
      | none =>
        ({ success := false
           message := "Failed to save video submission. Please try again."
           video_id := none }, videos)

end VideoSubmissions

/-- C8: when the store already holds a `VideoSubmission` for the student
id, a second `submit_video` call returns a structured failure
(`success = false`) and leaves the video collection unchanged — no new
record is created, preserving "at most one submission per student"; with
a valid link the failure carries the duplicate-submission rejection
message. -/
theorem C8_duplicate_video_rejected (videos : List VideoSubmission)
    (student_id student_email video_link topic now : String)
    (new_video_id : Option String)
    (h : ∃ v ∈ videos, v.student_id = student_id) :
    (VideoSubmissions.submit_video videos student_id student_email
        video_link topic now new_video_id).1.success = false
    ∧ (VideoSubmissions.submit_video videos student_id student_email
        video_link topic now new_video_id).2 = videos
    ∧ ((VideoAnalyzer.validate_google_drive_link video_link).valid = true →
        (VideoSubmissions.submit_video videos student_id student_email
          video_link topic now new_video_id).1.message =
        "You have already submitted a video. Only one submission is allowed per student.") := by
  obtain ⟨v, hvmem, hvid⟩ := h
  have hfind : (VideoSubmissions.get_video_by_student videos student_id).isSome := by
    unfold VideoSubmissions.get_video_by_student
    rw [List.find?_isSome]
    exact ⟨v, hvmem, by simpa using hvid⟩
  unfold VideoSubmissions.submit_video
  by_cases hval :
      (VideoAnalyzer.validate_google_drive_link video_link).valid = false
  · rw [if_pos hval]
    refine ⟨rfl, rfl, ?_⟩
    intro ht
    rw [ht] at hval
    simp at hval
  · rw [if_neg hval]
    obtain ⟨v', hv'⟩ := Option.isSome_iff_exists.mp hfind
    rw [hv']
    exact ⟨rfl, rfl, fun _ => rfl⟩

/-- Witness for C8: student `"s1"` already has a stored video; a second
submission with a valid link is rejected and the store is unchanged. -/
theorem C8_duplicate_video_rejected_witness :
    (VideoSubmissions.submit_video
        [⟨"s1", "l0", "AI", "t0", "submitted", "f0", "d0"⟩]
        "s1" "s1@example.com" "https://drive.google.com/file/d/NEW42"
        "AI" "t1" (some "vid2")).1.success = false
    ∧ (VideoSubmissions.submit_video
        [⟨"s1", "l0", "AI", "t0", "submitted", "f0", "d0"⟩]
        "s1" "s1@example.com" "https://drive.google.com/file/d/NEW42"
        "AI" "t1" (some "vid2")).2 =
      [⟨"s1", "l0", "AI", "t0", "submitted", "f0", "d0"⟩]
    ∧ (VideoSubmissions.submit_video
        [⟨"s1", "l0", "AI", "t0", "submitted", "f0", "d0"⟩]
        "s1" "s1@example.com" "https://drive.google.com/file/d/NEW42"
        "AI" "t1" (some "vid2")).1.message =
      "You have already submitted a video. Only one submission is allowed per student." := by
  have h := C8_duplicate_video_rejected
    [⟨"s1", "l0", "AI", "t0", "submitted", "f0", "d0"⟩]
    "s1" "s1@example.com" "https://drive.google.com/file/d/NEW42"
    "AI" "t1" (some "vid2")
    ⟨⟨"s1", "l0", "AI", "t0", "submitted", "f0", "d0"⟩, by simp, rfl⟩
  exact ⟨h.1, h.2.1, h.2.2 (by decide)⟩

/-! ## Fallback video-analysis heuristic

`VideoAnalyzerAgent._generate_mock_analysis`
(src/agents/video_analyzer.py, lines 301-332). The bounded random jitter
`random.randint(-5, 10)` (both ends inclusive) is the `jitter`
parameter. -/

/-- One `score`/`feedback` criterion entry of the analysis report. -/
structure CriterionScore where
  score : ℚ
  feedback : String
  deriving Repr, DecidableEq

/-- The complete report shape produced by the analysis heuristic. -/
structure VideoAnalysisReport where
  content_quality : CriterionScore
  clarity_communication : CriterionScore
  technical_knowledge : CriterionScore
  structure_organization : CriterionScore
  engagement_delivery : CriterionScore
  total_score : ℤ
  score_percentage : ℚ
  grade : String
  strengths : List String
  areas_for_improvement : List String
  overall_feedback : String
  deriving Repr, DecidableEq

/-- Python `len(transcript.split())`: number of whitespace-separated
words. -/
def wordCount (s : String) : ℕ := (pyWords s.data).length

namespace VideoAnalyzer

/-- `VideoAnalyzerAgent._generate_mock_analysis`
(src/agents/video_analyzer.py, lines 301-332). -/
def generate_mock_analysis (jitter : ℤ) (transcript topic : String) :
    VideoAnalysisReport :=
  let word_count := wordCount transcript
  let base_score : ℤ :=
    if containsSub "artificial intelligence".data (pyLower transcript.data)
        || containsSub "machine learning".data (pyLower transcript.data) then 78
    else if word_count > 80 then 72
    else 65
  let score : ℤ := max 0 (min 100 (base_score + jitter))
  let grade := calculate_letter_grade (score : ℚ)
  { content_quality := ⟨(score : ℚ) * (3 / 10),
      "Good coverage of " ++ topic ++ " concepts with clear explanations"⟩
    clarity_communication := ⟨(score : ℚ) * (25 / 100),
      "Clear and understandable presentation style"⟩
    technical_knowledge := ⟨(score : ℚ) * (2 / 10),
      "Demonstrates solid understanding of technical concepts"⟩
    structure_organization := ⟨(score : ℚ) * (15 / 100),
      "Well-organized presentation with logical flow"⟩
    engagement_delivery := ⟨(score : ℚ) * (1 / 10),
      "Confident delivery with good pacing"⟩
    total_score := score
    score_percentage := round2 (score : ℚ)
    grade := grade
    strengths := ["Clear explanations", "Good technical knowledge",
      "Well-structured content"]
    areas_for_improvement := ["More examples", "Deeper technical analysis",
      "Better conclusion"]
    overall_feedback := "Excellent presentation on " ++ topic ++
      "! You demonstrated strong understanding of the concepts. To improve further, consider adding more real-world examples and diving deeper into technical details. Your communication skills are strong, and the presentation was well-organized. Keep up the great work!" }

end VideoAnalyzer

/-- C7: the fallback video-analysis heuristic scores 78 when the
lowercased transcript contains "artificial intelligence" or "machine
learning", else 72 when the word count exceeds 80, else 65; the jitter
in `[-5, 10]` is added and the sum clamped to `[0, 100]`; each of the
five sub-scores is the final score times its weight
(0.30, 0.25, 0.20, 0.15, 0.10); the reported percentage equals the final
score and the grade comes from the shared ladder; the report always has
the full shape (three strengths, three improvement areas); and the empty
transcript falls into the word-count branch with count 0 and base 65. -/
theorem C7_generate_mock_analysis (jitter : ℤ) (transcript topic : String)
    (h1 : -5 ≤ jitter) (h2 : jitter ≤ 10) :
    (VideoAnalyzer.generate_mock_analysis jitter transcript topic).total_score =
      max 0 (min 100
        ((if containsSub "artificial intelligence".data (pyLower transcript.data)
            || containsSub "machine learning".data (pyLower transcript.data)
          then (78 : ℤ)
          else if wordCount transcript > 80 then 72 else 65) + jitter))
    ∧ 0 ≤ (VideoAnalyzer.generate_mock_analysis jitter transcript topic).total_score
    ∧ (VideoAnalyzer.generate_mock_analysis jitter transcript topic).total_score ≤ 100
    ∧ (VideoAnalyzer.generate_mock_analysis jitter transcript
        topic).content_quality.score =
      ((VideoAnalyzer.generate_mock_analysis jitter transcript
        topic).total_score : ℚ) * (3 / 10)
    ∧ (VideoAnalyzer.generate_mock_analysis jitter transcript
        topic).clarity_communication.score =
      ((VideoAnalyzer.generate_mock_analysis jitter transcript
        topic).total_score : ℚ) * (25 / 100)
    ∧ (VideoAnalyzer.generate_mock_analysis jitter transcript
        topic).technical_knowledge.score =
      ((VideoAnalyzer.generate_mock_analysis jitter transcript
        topic).total_score : ℚ) * (2 / 10)
    ∧ (VideoAnalyzer.generate_mock_analysis jitter transcript
        topic).structure_organization.score =
      ((VideoAnalyzer.generate_mock_analysis jitter transcript
        topic).total_score : ℚ) * (15 / 100)
    ∧ (VideoAnalyzer.generate_mock_analysis jitter transcript
        topic).engagement_delivery.score =
      ((VideoAnalyzer.generate_mock_analysis jitter transcript
        topic).total_score : ℚ) * (1 / 10)
    ∧ (VideoAnalyzer.generate_mock_analysis jitter transcript
        topic).score_percentage =
      ((VideoAnalyzer.generate_mock_analysis jitter transcript
        topic).total_score : ℚ)
    ∧ (VideoAnalyzer.generate_mock_analysis jitter transcript topic).grade =
      VideoAnalyzer.calculate_letter_grade
        ((VideoAnalyzer.generate_mock_analysis jitter transcript
          topic).total_score : ℚ)
    ∧ (VideoAnalyzer.generate_mock_analysis jitter transcript
        topic).strengths.length = 3
    ∧ (VideoAnalyzer.generate_mock_analysis jitter transcript
        topic).areas_for_improvement.length = 3
    ∧ (transcript = "" → wordCount transcript = 0
        ∧ (VideoAnalyzer.generate_mock_analysis jitter transcript
            topic).total_score = 65 + jitter) := by
  refine ⟨rfl, le_max_left 0 _, max_le (by norm_num) (min_le_left _ _),
    rfl, rfl, rfl, rfl, rfl, round2_intCast _, rfl, rfl, rfl, ?_⟩
  intro ht
  subst ht
  refine ⟨by decide, ?_⟩
  show max 0 (min 100
    ((if containsSub "artificial intelligence".data (pyLower (String.data ""))
        || containsSub "machine learning".data (pyLower (String.data ""))
      then (78 : ℤ)
      else if wordCount "" > 80 then 72 else 65) + jitter)) = 65 + jitter
  rw [show (if containsSub "artificial intelligence".data
        (pyLower (String.data ""))
        || containsSub "machine learning".data (pyLower (String.data ""))
      then (78 : ℤ)
      else if wordCount "" > 80 then 72 else 65) = 65 by decide]
  omega

/-- Witness for C7 at jitter 3 and the empty transcript: base 65, final
score 68, sub-scores 68 times the weights, grade D. -/
theorem C7_generate_mock_analysis_witness :
    (VideoAnalyzer.generate_mock_analysis 3 "" "AI").total_score = 68
    ∧ (VideoAnalyzer.generate_mock_analysis 3 "" "AI").content_quality.score =
      68 * (3 / 10)
    ∧ (VideoAnalyzer.generate_mock_analysis 3 "" "AI").grade = "D" := by
  have h := C7_generate_mock_analysis 3 "" "AI" (by norm_num) (by norm_num)
  have htot := (h.2.2.2.2.2.2.2.2.2.2.2.2 rfl).2
  refine ⟨by rw [htot]; norm_num, ?_, ?_⟩
  · rw [h.2.2.2.1, htot]
    norm_num
  · rw [h.2.2.2.2.2.2.2.2.2.1, htot]
    norm_num [VideoAnalyzer.calculate_letter_grade]

end AISB
